import Mathlib

/-!
# Verification of the sol-evc-firmware build-hook scripts

Shallow embedding of the asset staging and compression pipeline implemented by
`tools/web_build.py` (`build_and_prepare_web_ui`), `tools/build_web_ui.py`
(`build_and_copy_web_ui`) and the post-build check `tools/upload_check.py`
(`print_firmware_info`).

Filesystem trees are modelled as lists of staged files (relative directory,
base name, byte content); the flat output directory (`data/`) is modelled as an
association list from destination file name to artifact bytes.  The external
`npm run build` hook is an injected `Except` value (stderr text on failure).
Python's `ZeroDivisionError` escaping the compression loop is modelled by the
loop returning `Except.error` carrying the state at the moment of the raise
(filesystem effects already performed are preserved in that state).
-/

set_option autoImplicit false

deriving instance DecidableEq for Except

namespace SolEvc

/-- Character-wise suffix test: `hasSuffix s suf` models Python `s.endswith(suf)`
(case-sensitive exact suffix match). -/
def hasSuffix (s suf : String) : Bool := List.isSuffixOf suf.data s.data

/-- Little-endian 16-bit serialization. -/
def le16 (n : Nat) : List Nat := [n % 256, n / 256 % 256]

/-- Little-endian 32-bit serialization (as CPython's `write32u`). -/
def le32 (n : Nat) : List Nat := [n % 256, n / 256 % 256, n / 65536 % 256, n / 16777216 % 256]

/-- Modelled: zlib's DEFLATE at `compresslevel=9` is a pure, deterministic
function of the input bytes.  It is represented here by the RFC 1951
stored-block framing; the development relies only on the artifact body being a
function of the data alone (no clock, no randomness), never on the specific
compressed bits. -/
def deflate9 (data : List Nat) : List Nat :=
  1 :: (le16 (data.length % 65536) ++ le16 (65535 - data.length % 65536) ++ data)

/-- Modelled: `zlib.crc32`, a pure deterministic checksum of the data; the
development relies only on determinism and dependence on the payload alone. -/
def crc32 (data : List Nat) : Nat :=
  data.foldl (fun a b => (a * 256 + b + 1) % 4294967296) 0

/-- CPython's `GzipFile._write_gzip_header` strips a trailing `.gz` from the
output file's base name before embedding it in the FNAME header field. -/
def stripGz (s : String) : String :=
  if hasSuffix s ".gz" then String.mk (s.data.take (s.data.length - 3)) else s

/-- Byte encoding of the embedded file name (the names involved are ASCII). -/
def strBytes (s : String) : List Nat := s.data.map Char.toNat

/-- The gzip member header written by CPython's `gzip.open(..., 'wb',
compresslevel=9)`: magic `1f 8b`, method 8 (deflate), flags = FNAME,
a 32-bit little-endian MTIME taken from `time.time()` at write time,
XFL = 2 (maximum compression), OS = 255, then the NUL-terminated name. -/
def gzipHeader (mtime : Nat) (fname : String) : List Nat :=
  [31, 139, 8, 8] ++ le32 mtime ++ [2, 255] ++ strBytes (stripGz fname) ++ [0]

/-- Full artifact bytes produced for one file by
`gzip.open(dst_path, 'wb', compresslevel=9)` + `shutil.copyfileobj`:
header, deflate body, CRC32 and length-mod-2^32 trailer.  `mtime` is the
clock value `time.time()` observed during the run. -/
def gzipCompress (mtime : Nat) (fname : String) (data : List Nat) : List Nat :=
  gzipHeader mtime fname ++ deflate9 data ++ le32 (crc32 data) ++ le32 (data.length % 4294967296)

/-- A file under the staged source tree (`data/www`), as enumerated by
`os.walk`: its subdirectory path relative to the walk root, its base name
(`filename` in the loop), and its byte content. -/
structure StagedFile where
  dir : List String
  name : String
  content : List Nat
deriving DecidableEq, Repr

/-- `filename.endswith(('.html', '.css', '.js', '.json'))` from
web_build.py line 65. -/
def eligible (name : String) : Bool :=
  hasSuffix name ".html" || hasSuffix name ".css" || hasSuffix name ".js" || hasSuffix name ".json"

/-- `dst_filename = filename + '.gz'` (web_build.py line 70). -/
def dst_filename (f : StagedFile) : String := f.name ++ ".gz"

/-- `os.path.join` on a POSIX-style path. -/
def joinPath (a b : String) : String := a ++ "/" ++ b

/-- `dst_path = join(data_root_dir, dst_filename)` (web_build.py line 71):
only the base name enters the output path. -/
def dst_path (dataRoot : String) (f : StagedFile) : String :=
  joinPath dataRoot (dst_filename f)

/-- Writing a file into the flat output directory: opening for `'wb'`
truncates an existing entry in place, otherwise creates a new one. -/
def writeFile : List (String × List Nat) → String → List Nat → List (String × List Nat)
  | [], n, bts => [(n, bts)]
  | p :: ps, n, bts => if p.1 = n then (n, bts) :: ps else p :: writeFile ps n bts

/-- Reading a file from the flat output directory. -/
def readFile : List (String × List Nat) → String → Option (List Nat)
  | [], _ => none
  | p :: ps, k => if p.1 = k then some p.2 else readFile ps k

/-- One printed progress line
`filename → dst_filename: src_size → dst_size bytes (…% saved)`
(web_build.py line 82); `pctSaved` is `compression_ratio` in the source. -/
structure ProgressLine where
  srcName : String
  dstName : String
  origSize : Nat
  compSize : Nat
  pctSaved : ℚ
deriving DecidableEq, Repr

/-- State threaded through the compression loop of web_build.py lines 60-84:
the flat output directory `data/`, the progress lines printed so far,
`file_count` and `compressed_files`. -/
structure CompressState where
  disk : List (String × List Nat)
  lines : List ProgressLine
  fileCount : Nat
  compressedFiles : List String
deriving DecidableEq, Repr

/-- Loop state on entry to step 2: `file_count = 0`, `compressed_files = []`,
nothing yet written into the output directory. -/
def initState : CompressState := ⟨[], [], 0, []⟩

/-- Body of the per-file loop (web_build.py lines 64-84).  For an eligible
file the artifact is written first; then `compression_ratio =
(1 - dst_size / src_size) * 100` — when `src_size = 0` Python raises
`ZeroDivisionError` there, aborting the loop after the write, which is
modelled by `Except.error` carrying the state (written artifact included). -/
def compressOne (now : Nat) (st : CompressState) (f : StagedFile) :
    Except CompressState CompressState :=
  if eligible f.name then
    let dstName := dst_filename f
    let artifact := gzipCompress now dstName f.content
    let disk2 := writeFile st.disk dstName artifact
    let srcSize := f.content.length
    let dstSize := artifact.length
    if srcSize = 0 then
      Except.error { st with disk := disk2 }
    else
      Except.ok
        { disk := disk2,
          lines := st.lines ++
            [⟨f.name, dstName, srcSize, dstSize, (1 - (dstSize : ℚ) / (srcSize : ℚ)) * 100⟩],
          fileCount := st.fileCount + 1,
          compressedFiles := st.compressedFiles ++ [dstName] }
  else Except.ok st

/-- The whole `os.walk` loop over the staged files in traversal order. -/
def compressFold (now : Nat) (st : CompressState) : List StagedFile → Except CompressState CompressState
  | [] => Except.ok st
  | f :: fs =>
    match compressOne now st f with
    | Except.error e => Except.error e
    | Except.ok st2 => compressFold now st2 fs

/-- The state after a successful iteration on an eligible, non-empty file
(the `Except.ok` branch of `compressOne`, named for use in lemmas). -/
def stepState (now : Nat) (st : CompressState) (f : StagedFile) : CompressState :=
  { disk := writeFile st.disk (dst_filename f) (gzipCompress now (dst_filename f) f.content),
    lines := st.lines ++
      [⟨f.name, dst_filename f, f.content.length,
        (gzipCompress now (dst_filename f) f.content).length,
        (1 - ((gzipCompress now (dst_filename f) f.content).length : ℚ) /
          (f.content.length : ℚ)) * 100⟩],
    fileCount := st.fileCount + 1,
    compressedFiles := st.compressedFiles ++ [dst_filename f] }

/-! ## The stage runners -/

/-- The environment a run of either build hook observes: whether `web-ui/`
exists, the outcome of the external `npm run build` (error carries the captured
stderr of the `CalledProcessError`), whether `web-ui/dist` exists afterwards
and its contents, and the pre-existing contents of `data/www` (`none` =
directory absent). -/
structure WebBuildEnv where
  webUiDirExists : Bool
  npmBuild : Except String Unit
  distExists : Bool
  distFiles : List StagedFile
  dataWwwInitial : Option (List StagedFile)
deriving DecidableEq, Repr

/-- Observable outcome of one run of `build_and_prepare_web_ui`
(web_build.py): whether `npm run build` was invoked and failed, whether the
`rmtree` + `copytree` staging copy executed, the final contents of `data/www`,
whether step 2 was skipped for lack of a source directory, and the result of
the compression loop (`none` when it never ran). -/
structure RunOutcome where
  npmRan : Bool
  buildFailed : Bool
  stagedCopy : Bool
  dataWww : Option (List StagedFile)
  compressSkippedNoSource : Bool
  compress : Option (Except CompressState CompressState)
deriving Repr

/-- `build_and_prepare_web_ui` (web_build.py lines 17-99).  Step 1: if
`web-ui` exists, run `npm run build`; a `CalledProcessError` prints the error
and returns (no staging, no compression).  If `web-ui/dist` exists, `data/www`
is removed wholesale and replaced by a copy of `dist`.  Step 2: if `data/www`
does not exist, print a skip notice and return; otherwise run the compression
loop over its files.  `now` is the clock value `time.time()` observed by the
gzip writes during the run. -/
def build_and_prepare_web_ui (now : Nat) (env : WebBuildEnv) : RunOutcome :=
  if env.webUiDirExists then
    match env.npmBuild with
    | Except.error _ =>
      { npmRan := true, buildFailed := true, stagedCopy := false,
        dataWww := env.dataWwwInitial, compressSkippedNoSource := false, compress := none }
    | Except.ok _ =>
      let dataWww := if env.distExists then some env.distFiles else env.dataWwwInitial
      match dataWww with
      | none =>
        { npmRan := true, buildFailed := false, stagedCopy := env.distExists,
          dataWww := none, compressSkippedNoSource := true, compress := none }
      | some files =>
        { npmRan := true, buildFailed := false, stagedCopy := env.distExists,
          dataWww := some files, compressSkippedNoSource := false,
          compress := some (compressFold now initState files) }
  else
    match env.dataWwwInitial with
    | none =>
      { npmRan := false, buildFailed := false, stagedCopy := false,
        dataWww := none, compressSkippedNoSource := true, compress := none }
    | some files =>
      { npmRan := false, buildFailed := false, stagedCopy := false,
        dataWww := some files, compressSkippedNoSource := false,
        compress := some (compressFold now initState files) }

/-- Whether the run escaped with the (unhandled) `ZeroDivisionError` of the
compression loop; in every other case the Python function returns `None`
(success). -/
def runRaised (o : RunOutcome) : Bool :=
  match o.compress with
  | some (Except.error _) => true
  | _ => false

/-- Observable outcome of one run of `build_and_copy_web_ui`
(build_web_ui.py): there is no compression step in this variant. -/
structure CopyOutcome where
  npmRan : Bool
  buildFailed : Bool
  dataWww : Option (List StagedFile)
  skippedNoWebUi : Bool
deriving DecidableEq, Repr

/-- `build_and_copy_web_ui` (build_web_ui.py lines 13-68).  If `web-ui` is
missing the run is skipped.  On `npm run build` failure it returns with
`data/www` untouched.  If `web-ui/dist` exists, `data/www` is created if
needed, then removed wholesale (`shutil.rmtree`) and replaced by a copy of
`dist` (`shutil.copytree`). -/
def build_and_copy_web_ui (env : WebBuildEnv) : CopyOutcome :=
  if env.webUiDirExists then
    match env.npmBuild with
    | Except.error _ =>
      { npmRan := true, buildFailed := true, dataWww := env.dataWwwInitial,
        skippedNoWebUi := false }
    | Except.ok _ =>
      if env.distExists then
        { npmRan := true, buildFailed := false, dataWww := some env.distFiles,
          skippedNoWebUi := false }
      else
        { npmRan := true, buildFailed := false, dataWww := env.dataWwwInitial,
          skippedNoWebUi := false }
  else
    { npmRan := false, buildFailed := false, dataWww := env.dataWwwInitial,
      skippedNoWebUi := true }

/-! ## The post-build firmware check -/

/-- What `print_firmware_info` (upload_check.py) observes: whether the
firmware file exists at `target[0]` and its size in bytes. -/
structure FirmwareEnv where
  firmwareExists : Bool
  firmwareSize : Nat
deriving DecidableEq, Repr

/-- `flash_size = 4 * 1024 * 1024` (upload_check.py line 27). -/
def flash_size : Nat := 4 * 1024 * 1024

/-- `max_firmware_size = 1024 * 1024  # 1MB max for OTA` (upload_check.py
line 32). -/
def max_firmware_size : Nat := 1024 * 1024

/-- What `print_firmware_info` printed. -/
structure FirmwareReport where
  infoPrinted : Bool
  reportedSize : Nat
  usagePct : ℚ
  otaWarning : Bool
  notFoundWarning : Bool
deriving Repr

/-- `print_firmware_info` (upload_check.py lines 12-43): if the firmware file
exists, print its size, the flash usage percentage, and — exactly when
`firmware_size > max_firmware_size` — the OTA size warning; otherwise print a
file-not-found warning. -/
def print_firmware_info (env : FirmwareEnv) : FirmwareReport :=
  if env.firmwareExists then
    { infoPrinted := true,
      reportedSize := env.firmwareSize,
      usagePct := ((env.firmwareSize : ℚ) / (flash_size : ℚ)) * 100,
      otaWarning := decide (max_firmware_size < env.firmwareSize),
      notFoundWarning := false }
  else
    { infoPrinted := false, reportedSize := 0, usagePct := 0,
      otaWarning := false, notFoundWarning := true }

/-! ## Concrete fixtures used by the witnesses -/

/-- A run where the hook succeeds and `dist` holds one page, while the
destination still holds a stale file from a previous build. -/
def envC3 : WebBuildEnv :=
  { webUiDirExists := true, npmBuild := Except.ok (), distExists := true,
    distFiles := [⟨[], "index.html", [60, 104, 62]⟩],
    dataWwwInitial := some [⟨[], "stale.txt", [1]⟩] }

/-- A run where `npm run build` exits non-zero. -/
def envC5 : WebBuildEnv :=
  { webUiDirExists := true, npmBuild := Except.error "build exploded", distExists := true,
    distFiles := [⟨[], "index.html", [60]⟩],
    dataWwwInitial := some [⟨[], "old.js", [1]⟩] }

/-- A run where the hook succeeds but neither `dist` nor `data/www` exists. -/
def envC6 : WebBuildEnv :=
  { webUiDirExists := true, npmBuild := Except.ok (), distExists := false,
    distFiles := [], dataWwwInitial := none }

/-- A staged tree with one eligible page and one ineligible image. -/
def fsC4 : List StagedFile := [⟨[], "index.html", [60, 104]⟩, ⟨[], "logo.png", [137, 80]⟩]

/-- Loop state after compressing `fsC4` (only `index.html` is compressed). -/
def stC4 : CompressState := stepState 0 initState ⟨[], "index.html", [60, 104]⟩

/-- A staged file nested two directories deep. -/
def fC7 : StagedFile := ⟨["sub", "dir"], "app.css", [104]⟩

/-- Loop state after compressing `[fC7]`. -/
def stC7 : CompressState := stepState 0 initState fC7

/-- A two-byte eligible script. -/
def fC8 : StagedFile := ⟨[], "a.js", [104, 105]⟩

/-- Loop state after compressing `[fC8]`. -/
def stC8 : CompressState := stepState 0 initState fC8

/-- The progress line printed for `fC8`. -/
def lineC8 : ProgressLine :=
  ⟨fC8.name, dst_filename fC8, fC8.content.length,
    (gzipCompress 0 (dst_filename fC8) fC8.content).length,
    (1 - ((gzipCompress 0 (dst_filename fC8) fC8.content).length : ℚ) /
      (fC8.content.length : ℚ)) * 100⟩

/-- Two eligible files in different subdirectories sharing the base name. -/
def fC9a : StagedFile := ⟨["a"], "x.js", [104]⟩

/-- Second colliding file, visited later, with different content. -/
def fC9b : StagedFile := ⟨["b"], "x.js", [105]⟩

/-- Loop state after compressing `[fC9a, fC9b]`. -/
def stC9 : CompressState := stepState 0 (stepState 0 initState fC9a) fC9b

/-! ## Basic lemmas about the flat output directory -/

theorem writeFile_read_self (d : List (String × List Nat)) (n : String) (bts : List Nat) :
    readFile (writeFile d n bts) n = some bts := by
  induction d with
  | nil => simp [writeFile, readFile]
  | cons p ps ih =>
    by_cases h : p.1 = n
    · simp [writeFile, readFile, h]
    · simp [writeFile, readFile, h, ih]

theorem writeFile_read_ne (d : List (String × List Nat)) (n k : String) (bts : List Nat)
    (h : k ≠ n) : readFile (writeFile d n bts) k = readFile d k := by
  have hnk : ¬n = k := fun hh => h hh.symm
  induction d with
  | nil => simp [writeFile, readFile, hnk]
  | cons p ps ih =>
    by_cases hp : p.1 = n
    · simp [writeFile, readFile, hp, hnk]
    · simp only [writeFile, hp, if_false, readFile, ih]

theorem writeFile_read_pres (d : List (String × List Nat)) (n k : String) (bts : List Nat)
    (h : readFile d k ≠ none) : readFile (writeFile d n bts) k ≠ none := by
  by_cases hk : k = n
  · subst hk; simp [writeFile_read_self]
  · rw [writeFile_read_ne d n k bts hk]; exact h

theorem writeFile_length_le (d : List (String × List Nat)) (n : String) (bts : List Nat) :
    (writeFile d n bts).length ≤ d.length + 1 := by
  induction d with
  | nil => simp [writeFile]
  | cons p ps ih =>
    by_cases hp : p.1 = n
    · simp [writeFile, hp]
    · simpa [writeFile, hp] using ih

theorem writeFile_length_of_mem (d : List (String × List Nat)) (n : String) (bts : List Nat)
    (h : readFile d n ≠ none) : (writeFile d n bts).length = d.length := by
  induction d with
  | nil => simp [readFile] at h
  | cons p ps ih =>
    by_cases hp : p.1 = n
    · simp [writeFile, hp]
    · have h2 : readFile ps n ≠ none := by simpa [readFile, hp] using h
      simp [writeFile, hp, ih h2]

theorem writeFile_read_mem (d : List (String × List Nat)) (n k : String) (bts : List Nat)
    (h : readFile (writeFile d n bts) k ≠ none) : readFile d k ≠ none ∨ k = n := by
  by_cases hk : k = n
  · exact Or.inr hk
  · rw [writeFile_read_ne d n k bts hk] at h; exact Or.inl h

/-! ## Inversion lemmas for the compression loop -/

theorem compressOne_not_elig {now : Nat} {st : CompressState} {f : StagedFile}
    (he : eligible f.name = false) : compressOne now st f = Except.ok st := by
  simp [compressOne, he]

theorem compressOne_elig {now : Nat} {st : CompressState} {f : StagedFile}
    (he : eligible f.name = true) (hz : f.content.length ≠ 0) :
    compressOne now st f = Except.ok (stepState now st f) := by
  simp [compressOne, he, hz, stepState]

theorem compressOne_zero {now : Nat} {st : CompressState} {f : StagedFile}
    (he : eligible f.name = true) (hz : f.content.length = 0) :
    compressOne now st f =
      Except.error { st with
        disk := writeFile st.disk (dst_filename f) (gzipCompress now (dst_filename f) f.content) } := by
  simp [compressOne, he, hz]

theorem compressOne_ok_inv {now : Nat} {st st' : CompressState} {f : StagedFile}
    (h : compressOne now st f = Except.ok st') :
    (eligible f.name = false ∧ st' = st) ∨
      (eligible f.name = true ∧ f.content.length ≠ 0 ∧ st' = stepState now st f) := by
  by_cases he : eligible f.name
  · by_cases hz : f.content.length = 0
    · rw [compressOne_zero he hz] at h; exact absurd h (by simp)
    · rw [compressOne_elig he hz] at h
      exact Or.inr ⟨he, hz, (Except.ok.injEq _ _ ▸ h.symm)⟩
  · rw [compressOne_not_elig (by simpa using he)] at h
    exact Or.inl ⟨by simpa using he, (Except.ok.injEq _ _ ▸ h.symm)⟩

theorem compressFold_cons_ok {now : Nat} {st st' : CompressState} {f : StagedFile}
    {fs : List StagedFile} (h : compressFold now st (f :: fs) = Except.ok st') :
    ∃ st2, compressOne now st f = Except.ok st2 ∧ compressFold now st2 fs = Except.ok st' := by
  cases hone : compressOne now st f with
  | error e => simp [compressFold, hone] at h
  | ok st2 => exact ⟨st2, rfl, by simpa [compressFold, hone] using h⟩

theorem compressFold_append (now : Nat) (xs ys : List StagedFile) (st : CompressState) :
    compressFold now st (xs ++ ys) =
      match compressFold now st xs with
      | Except.error e => Except.error e
      | Except.ok st2 => compressFold now st2 ys := by
  induction xs generalizing st with
  | nil => simp [compressFold]
  | cons f fs ih =>
    simp only [List.cons_append, compressFold]
    cases compressOne now st f with
    | error e => rfl
    | ok st2 => exact ih st2

/-! ## Invariants of the compression loop -/

theorem compressFold_fileCount {now : Nat} {fs : List StagedFile} :
    ∀ {st st' : CompressState}, compressFold now st fs = Except.ok st' →
      st'.fileCount = st.fileCount + (fs.filter fun f => eligible f.name).length := by
  induction fs with
  | nil => intro st st' h; simp [compressFold] at h; simp [h.symm]
  | cons f fs ih =>
    intro st st' h
    obtain ⟨st2, hone, hrest⟩ := compressFold_cons_ok h
    rcases compressOne_ok_inv hone with ⟨he, hst⟩ | ⟨he, hz, hst⟩
    · subst hst; simpa [List.filter_cons, he] using ih hrest
    · subst hst
      have := ih hrest
      simp only [List.filter_cons, he, if_true, List.length_cons] at *
      simp [this, stepState]
      omega

theorem compressFold_disk_le {now : Nat} {fs : List StagedFile} :
    ∀ {st st' : CompressState}, compressFold now st fs = Except.ok st' →
      st'.disk.length ≤ st.disk.length + (fs.filter fun f => eligible f.name).length := by
  induction fs with
  | nil => intro st st' h; simp [compressFold] at h; simp [h.symm]
  | cons f fs ih =>
    intro st st' h
    obtain ⟨st2, hone, hrest⟩ := compressFold_cons_ok h
    rcases compressOne_ok_inv hone with ⟨he, hst⟩ | ⟨he, hz, hst⟩
    · subst hst; simpa [List.filter_cons, he] using ih hrest
    · subst hst
      have h1 := ih hrest
      have h2 := writeFile_length_le st.disk (dst_filename f)
        (gzipCompress now (dst_filename f) f.content)
      simp only [List.filter_cons, he, if_true, List.length_cons]
      simp only [stepState] at h1
      omega

theorem compressFold_read_persist {now : Nat} {fs : List StagedFile} {k : String} :
    ∀ {st st' : CompressState}, compressFold now st fs = Except.ok st' →
      readFile st.disk k ≠ none → readFile st'.disk k ≠ none := by
  induction fs with
  | nil => intro st st' h hk; simp [compressFold] at h; exact h ▸ hk
  | cons f fs ih =>
    intro st st' h hk
    obtain ⟨st2, hone, hrest⟩ := compressFold_cons_ok h
    rcases compressOne_ok_inv hone with ⟨he, hst⟩ | ⟨he, hz, hst⟩
    · subst hst; exact ih hrest hk
    · subst hst
      exact ih hrest (writeFile_read_pres _ _ _ _ hk)

theorem compressFold_read_of_no_writer {now : Nat} {fs : List StagedFile} {k : String} :
    ∀ {st st' : CompressState}, compressFold now st fs = Except.ok st' →
      (∀ g ∈ fs, eligible g.name = true → dst_filename g ≠ k) →
      readFile st'.disk k = readFile st.disk k := by
  induction fs with
  | nil => intro st st' h _; simp [compressFold] at h; rw [h]
  | cons f fs ih =>
    intro st st' h hw
    obtain ⟨st2, hone, hrest⟩ := compressFold_cons_ok h
    rcases compressOne_ok_inv hone with ⟨he, hst⟩ | ⟨he, hz, hst⟩
    · subst hst; exact ih hrest fun g hg => hw g (List.mem_cons_of_mem f hg)
    · subst hst
      have hne : k ≠ dst_filename f :=
        fun hh => hw f (List.mem_cons_self f fs) he hh.symm
      rw [ih hrest fun g hg => hw g (List.mem_cons_of_mem f hg)]
      simpa [stepState] using writeFile_read_ne st.disk (dst_filename f) k _ hne

theorem compressFold_strict {now : Nat} {b c : List StagedFile} {f2 : StagedFile}
    {st st' : CompressState} (h : compressFold now st (b ++ f2 :: c) = Except.ok st')
    (he2 : eligible f2.name = true) (hk : readFile st.disk (dst_filename f2) ≠ none) :
    st'.disk.length + 1 ≤
      st.disk.length + ((b ++ f2 :: c).filter fun f => eligible f.name).length := by
  rw [compressFold_append] at h
  cases hb : compressFold now st b with
  | error e => rw [hb] at h; simp at h
  | ok stb =>
    rw [hb] at h
    obtain ⟨st2, hone, hrest⟩ := compressFold_cons_ok h
    have hkb : readFile stb.disk (dst_filename f2) ≠ none := compressFold_read_persist hb hk
    rcases compressOne_ok_inv hone with ⟨he, _⟩ | ⟨_, hz, hst⟩
    · rw [he] at he2; exact absurd he2 (by simp)
    · subst hst
      have h1 : (stepState now stb f2).disk.length = stb.disk.length := by
        simpa [stepState] using
          writeFile_length_of_mem stb.disk (dst_filename f2)
            (gzipCompress now (dst_filename f2) f2.content) hkb
      have h2 := compressFold_disk_le hb
      have h3 := compressFold_disk_le hrest
      rw [h1] at h3
      simp only [List.filter_append, List.filter_cons, he2, if_true, List.length_append,
        List.length_cons]
      omega

theorem compressFold_compressedFiles {now : Nat} {fs : List StagedFile} :
    ∀ {st st' : CompressState}, compressFold now st fs = Except.ok st' →
      st'.compressedFiles =
        st.compressedFiles ++ (fs.filter fun f => eligible f.name).map dst_filename := by
  induction fs with
  | nil => intro st st' h; simp [compressFold] at h; simp [h.symm]
  | cons f fs ih =>
    intro st st' h
    obtain ⟨st2, hone, hrest⟩ := compressFold_cons_ok h
    rcases compressOne_ok_inv hone with ⟨he, hst⟩ | ⟨he, hz, hst⟩
    · subst hst; simpa [List.filter_cons, he] using ih hrest
    · subst hst
      have := ih hrest
      simp only [List.filter_cons, he, if_true, List.map_cons] at *
      simp [this, stepState]

theorem compressFold_lines_inv {now : Nat} {fs : List StagedFile} :
    ∀ {st st' : CompressState}, compressFold now st fs = Except.ok st' →
      ∀ line ∈ st'.lines, line ∈ st.lines ∨
        ∃ f ∈ fs, eligible f.name = true ∧ f.content.length ≠ 0 ∧
          line = ⟨f.name, dst_filename f, f.content.length,
            (gzipCompress now (dst_filename f) f.content).length,
            (1 - ((gzipCompress now (dst_filename f) f.content).length : ℚ) /
              (f.content.length : ℚ)) * 100⟩ := by
  induction fs with
  | nil => intro st st' h line hl; simp [compressFold] at h; exact Or.inl (h ▸ hl)
  | cons f fs ih =>
    intro st st' h line hl
    obtain ⟨st2, hone, hrest⟩ := compressFold_cons_ok h
    rcases compressOne_ok_inv hone with ⟨he, hst⟩ | ⟨he, hz, hst⟩
    · subst hst
      rcases ih hrest line hl with hmem | ⟨g, hg, hrec⟩
      · exact Or.inl hmem
      · exact Or.inr ⟨g, List.mem_cons_of_mem f hg, hrec⟩
    · subst hst
      rcases ih hrest line hl with hmem | ⟨g, hg, hrec⟩
      · simp only [stepState, List.mem_append, List.mem_singleton] at hmem
        rcases hmem with hmem | hmem
        · exact Or.inl hmem
        · exact Or.inr ⟨f, List.mem_cons_self f fs, he, hz, hmem⟩
      · exact Or.inr ⟨g, List.mem_cons_of_mem f hg, hrec⟩

theorem compressFold_disk_keys {now : Nat} {fs : List StagedFile} {k : String} :
    ∀ {st st' : CompressState}, compressFold now st fs = Except.ok st' →
      readFile st'.disk k ≠ none →
      readFile st.disk k ≠ none ∨ ∃ f ∈ fs, eligible f.name = true ∧ k = dst_filename f := by
  induction fs with
  | nil => intro st st' h hk; simp [compressFold] at h; exact Or.inl (h ▸ hk)
  | cons f fs ih =>
    intro st st' h hk
    obtain ⟨st2, hone, hrest⟩ := compressFold_cons_ok h
    rcases compressOne_ok_inv hone with ⟨he, hst⟩ | ⟨he, hz, hst⟩
    · subst hst
      rcases ih hrest hk with hmem | ⟨g, hg, hrec⟩
      · exact Or.inl hmem
      · exact Or.inr ⟨g, List.mem_cons_of_mem f hg, hrec⟩
    · subst hst
      rcases ih hrest hk with hmem | ⟨g, hg, hrec⟩
      · simp only [stepState] at hmem
        rcases writeFile_read_mem _ _ _ _ hmem with hold | hnew
        · exact Or.inl hold
        · exact Or.inr ⟨f, List.mem_cons_self f fs, he, hnew⟩
      · exact Or.inr ⟨g, List.mem_cons_of_mem f hg, hrec⟩

/-! ## String suffix-append cancellation -/

theorem string_data_append (a b : String) : (a ++ b).data = a.data ++ b.data := by
  cases a; cases b; rfl

theorem string_append_right_cancel {a b c : String} (h : a ++ c = b ++ c) : a = b := by
  have hd : a.data ++ c.data = b.data ++ c.data := by
    rw [← string_data_append, ← string_data_append, h]
  cases a; cases b
  exact congrArg String.mk (List.append_cancel_right hd)

theorem dst_filename_name_inj {f g : StagedFile}
    (h : dst_filename f = dst_filename g) : f.name = g.name :=
  string_append_right_cancel h

theorem string_append_assoc (a b c : String) : a ++ b ++ c = a ++ (b ++ c) := by
  cases a; cases b; cases c
  exact congrArg String.mk (List.append_assoc _ _ _)

/-! ## Claims -/

/-- Claim C1 — the code diverges from it: compressing an eligible staged file
whose original size is 0 bytes writes the compressed artifact but then raises
`ZeroDivisionError` at `compression_ratio = (1 - dst_size / src_size) * 100`
(web_build.py line 80); no n/a sentinel is ever reported.  The loop aborts in
the error state shown, whose output directory does contain the artifact. -/
theorem zero_size_file_raises_div_error :
    compressFold 0 initState [⟨[], "index.html", []⟩] =
      Except.error { disk := [("index.html.gz", gzipCompress 0 "index.html.gz" [])],
                     lines := [], fileCount := 0, compressedFiles := [] } := by
  decide

/-- Claim C2 — counterexample: the compression step is not byte-deterministic
across runs.  `gzip.open(dst_path, 'wb')` leaves `mtime=None`, so CPython
embeds `time.time()` in the gzip header; two runs over the identical staged
tree observing clock values 0 and 1 produce different artifact bytes. -/
theorem compress_not_time_invariant :
    compressFold 0 initState [⟨[], "app.js", [104, 105]⟩] ≠
      compressFold 1 initState [⟨[], "app.js", [104, 105]⟩] := by
  decide

/-- Claim C2 (amended): the compressor settings are deterministic given the
clock — two runs observing the same header timestamp produce byte-identical
artifacts, and everything past the 32-bit MTIME header field (byte offset 8
onward: XFL, OS, embedded name, deflate body, CRC/size trailer) is
byte-identical across runs regardless of the clock. -/
theorem compress_deterministic_given_timestamp (t1 t2 : Nat) (fs : List StagedFile) :
    (t1 = t2 → compressFold t1 initState fs = compressFold t2 initState fs) ∧
      ∀ name data, (gzipCompress t1 name data).drop 8 = (gzipCompress t2 name data).drop 8 := by
  constructor
  · intro h; subst h; rfl
  · intro name data
    simp [gzipCompress, gzipHeader, le32, List.append_assoc]

/-- Witness for the amended C2 at concrete inputs: clock value 4 twice, and
the post-MTIME suffix equality for clock values 4 and 9. -/
theorem compress_deterministic_given_timestamp_witness :
    compressFold 4 initState [⟨[], "app.js", [104]⟩] =
        compressFold 4 initState [⟨[], "app.js", [104]⟩] ∧
      (gzipCompress 4 "app.js.gz" [104]).drop 8 = (gzipCompress 9 "app.js.gz" [104]).drop 8 :=
  ⟨(compress_deterministic_given_timestamp 4 4 [⟨[], "app.js", [104]⟩]).1 rfl,
   (compress_deterministic_given_timestamp 4 9 [⟨[], "app.js", [104]⟩]).2 "app.js.gz" [104]⟩

/-- Claim C10: the OTA size warning is printed exactly when the firmware file
exists and its size strictly exceeds 1,048,576 bytes (`max_firmware_size`);
at or below that size, or when the file is missing, no OTA warning appears. -/
theorem ota_warning_iff_size_exceeds_limit (env : FirmwareEnv) :
    (print_firmware_info env).otaWarning = true ↔
      env.firmwareExists = true ∧ 1048576 < env.firmwareSize := by
  by_cases h : env.firmwareExists
  · simp [print_firmware_info, h, max_firmware_size]
  · simp [print_firmware_info, h]

/-- Witness for C10: a 2,000,000-byte firmware triggers the warning. -/
theorem ota_warning_iff_size_exceeds_limit_witness :
    (print_firmware_info ⟨true, 2000000⟩).otaWarning = true ↔
      (⟨true, 2000000⟩ : FirmwareEnv).firmwareExists = true ∧
        1048576 < (⟨true, 2000000⟩ : FirmwareEnv).firmwareSize :=
  ota_warning_iff_size_exceeds_limit ⟨true, 2000000⟩

/-- Claim C3: whenever the staging step completes (web-ui exists, the npm
build succeeded, and `dist` exists), the destination tree `data/www` is
exactly the copied source tree, in both script variants; any file absent from
the source — such as a stale leftover of a previous build — is absent from
the destination afterwards, whatever the destination held before. -/
theorem staging_replaces_destination (now : Nat) (env : WebBuildEnv) (f : StagedFile)
    (hw : env.webUiDirExists = true) (hn : env.npmBuild = Except.ok ())
    (hd : env.distExists = true) (hf : f ∉ env.distFiles) :
    (build_and_prepare_web_ui now env).dataWww = some env.distFiles ∧
    (build_and_copy_web_ui env).dataWww = some env.distFiles ∧
    f ∉ ((build_and_prepare_web_ui now env).dataWww.getD []) ∧
    f ∉ ((build_and_copy_web_ui env).dataWww.getD []) := by
  refine ⟨?_, ?_, ?_, ?_⟩ <;>
    simp [build_and_prepare_web_ui, build_and_copy_web_ui, hw, hn, hd, hf]

/-- Witness for C3: a destination holding `stale.txt` is fully replaced by a
one-file source tree; the stale file is gone from both variants' output. -/
theorem staging_replaces_destination_witness :
    (build_and_prepare_web_ui 0 envC3).dataWww = some envC3.distFiles ∧
    (build_and_copy_web_ui envC3).dataWww = some envC3.distFiles ∧
    (⟨[], "stale.txt", [1]⟩ : StagedFile) ∉ ((build_and_prepare_web_ui 0 envC3).dataWww.getD []) ∧
    (⟨[], "stale.txt", [1]⟩ : StagedFile) ∉ ((build_and_copy_web_ui envC3).dataWww.getD []) :=
  staging_replaces_destination 0 envC3 ⟨[], "stale.txt", [1]⟩ rfl rfl rfl (by decide)

/-- Claim C5: a non-zero exit of the external `npm run build` hook aborts the
run at that stage, in both script variants: the staging copy does not execute,
the compression loop never runs, and the destination tree is untouched. -/
theorem npm_failure_aborts_run (now : Nat) (env : WebBuildEnv) (msg : String)
    (hw : env.webUiDirExists = true) (hn : env.npmBuild = Except.error msg) :
    (build_and_prepare_web_ui now env).buildFailed = true ∧
    (build_and_prepare_web_ui now env).stagedCopy = false ∧
    (build_and_prepare_web_ui now env).compress = none ∧
    (build_and_prepare_web_ui now env).dataWww = env.dataWwwInitial ∧
    (build_and_copy_web_ui env).buildFailed = true ∧
    (build_and_copy_web_ui env).dataWww = env.dataWwwInitial := by
  refine ⟨?_, ?_, ?_, ?_, ?_, ?_⟩ <;>
    simp [build_and_prepare_web_ui, build_and_copy_web_ui, hw, hn]

/-- Witness for C5: a failing hook leaves the pre-existing destination intact
and produces no compression result. -/
theorem npm_failure_aborts_run_witness :
    (build_and_prepare_web_ui 0 envC5).buildFailed = true ∧
    (build_and_prepare_web_ui 0 envC5).stagedCopy = false ∧
    (build_and_prepare_web_ui 0 envC5).compress = none ∧
    (build_and_prepare_web_ui 0 envC5).dataWww = envC5.dataWwwInitial ∧
    (build_and_copy_web_ui envC5).buildFailed = true ∧
    (build_and_copy_web_ui envC5).dataWww = envC5.dataWwwInitial :=
  npm_failure_aborts_run 0 envC5 "build exploded" rfl rfl

/-- Claim C6: when the source tree for staging/compression does not exist
(no `dist` produced and no pre-existing `data/www`), and the build-hook stage
itself did not fail, web_build.py skips step 2 with its no-source notice and
returns normally (no exception, success); build_web_ui.py likewise skips when
its source directory `web-ui` is absent, leaving the destination untouched. -/
theorem missing_source_skips_stages (now : Nat) (env : WebBuildEnv)
    (hb : env.webUiDirExists = false ∨ env.npmBuild = Except.ok ())
    (hd : env.distExists = false) (hi : env.dataWwwInitial = none) :
    (build_and_prepare_web_ui now env).compressSkippedNoSource = true ∧
    (build_and_prepare_web_ui now env).compress = none ∧
    (build_and_prepare_web_ui now env).buildFailed = false ∧
    runRaised (build_and_prepare_web_ui now env) = false ∧
    (build_and_copy_web_ui { env with webUiDirExists := false }).skippedNoWebUi = true ∧
    (build_and_copy_web_ui { env with webUiDirExists := false }).dataWww = none := by
  have hcopy : (build_and_copy_web_ui { env with webUiDirExists := false }).skippedNoWebUi = true ∧
      (build_and_copy_web_ui { env with webUiDirExists := false }).dataWww = none := by
    simp [build_and_copy_web_ui, hi]
  by_cases hw : env.webUiDirExists
  · rcases hb with hb | hb
    · exact absurd hw (by simp [hb])
    · refine ⟨?_, ?_, ?_, ?_, hcopy.1, hcopy.2⟩ <;>
        simp [build_and_prepare_web_ui, hw, hb, hd, hi, runRaised]
  · have hw2 : env.webUiDirExists = false := by simpa using hw
    refine ⟨?_, ?_, ?_, ?_, hcopy.1, hcopy.2⟩ <;>
      simp [build_and_prepare_web_ui, hw2, hi, runRaised]

/-- Witness for C6: web-ui present, hook succeeded, but no dist and no
pre-existing `data/www`: both later stages are skipped and the run succeeds. -/
theorem missing_source_skips_stages_witness :
    (build_and_prepare_web_ui 0 envC6).compressSkippedNoSource = true ∧
    (build_and_prepare_web_ui 0 envC6).compress = none ∧
    (build_and_prepare_web_ui 0 envC6).buildFailed = false ∧
    runRaised (build_and_prepare_web_ui 0 envC6) = false ∧
    (build_and_copy_web_ui { envC6 with webUiDirExists := false }).skippedNoWebUi = true ∧
    (build_and_copy_web_ui { envC6 with webUiDirExists := false }).dataWww = none :=
  missing_source_skips_stages 0 envC6 (Or.inr rfl) rfl rfl

/-- Claim C4: after a completed compression step, the reported artifact
sequence is exactly the `<name>.gz` of the files whose name ends
(case-sensitively) in `.html`, `.css`, `.js` or `.json`, in traversal order;
any file not matching those suffixes contributes no reported artifact and no
artifact on disk. -/
theorem compress_exactly_eligible_suffixes (now : Nat) (fs : List StagedFile)
    (st' : CompressState) (f : StagedFile)
    (h : compressFold now initState fs = Except.ok st')
    (_hf : f ∈ fs) (he : eligible f.name = false) :
    st'.compressedFiles =
      ((fs.filter fun g => hasSuffix g.name ".html" || hasSuffix g.name ".css" ||
          hasSuffix g.name ".js" || hasSuffix g.name ".json").map
        fun g => g.name ++ ".gz") ∧
    (f.name ++ ".gz") ∉ st'.compressedFiles ∧
    readFile st'.disk (f.name ++ ".gz") = none := by
  have hc := compressFold_compressedFiles h
  refine ⟨hc, ?_, ?_⟩
  · intro hmem
    rw [hc] at hmem
    rcases List.mem_map.mp hmem with ⟨g, hgmem, hgdst⟩
    have hgel : eligible g.name = true := (List.mem_filter.mp hgmem).2
    have hname : g.name = f.name := string_append_right_cancel hgdst
    rw [hname] at hgel
    exact absurd hgel (by simp [he])
  · by_contra hne
    rcases compressFold_disk_keys h hne with h0 | ⟨g, hg, hgel, hkey⟩
    · exact h0 rfl
    · have hname : f.name = g.name := string_append_right_cancel hkey
      rw [← hname] at hgel
      exact absurd hgel (by simp [he])

/-- Witness for C4: of `index.html` and `logo.png`, only the page is
compressed and reported; no `logo.png.gz` exists. -/
theorem compress_exactly_eligible_suffixes_witness :
    stC4.compressedFiles =
      ((fsC4.filter fun g => hasSuffix g.name ".html" || hasSuffix g.name ".css" ||
          hasSuffix g.name ".js" || hasSuffix g.name ".json").map
        fun g => g.name ++ ".gz") ∧
    ("logo.png" ++ ".gz") ∉ stC4.compressedFiles ∧
    readFile stC4.disk ("logo.png" ++ ".gz") = none :=
  compress_exactly_eligible_suffixes 0 fsC4 stC4 ⟨[], "logo.png", [137, 80]⟩
    rfl (by decide) (by decide)

/-- Claim C7: under the flattened placement policy the destination path of
every artifact is `outputTarget/<filename>.gz`, built from the staged file's
base name alone — two files with the same base name map to the same path
whatever their subdirectories — and every artifact the loop wrote is placed at
such a path for some eligible staged file. -/
theorem flattened_placement_uses_basename (now : Nat) (root : String)
    (fs : List StagedFile) (st' : CompressState) (f g : StagedFile) (k : String)
    (h : compressFold now initState fs = Except.ok st')
    (hfg : f.name = g.name) (hk : readFile st'.disk k ≠ none) :
    dst_path root f = dst_path root g ∧
    dst_path root f = root ++ "/" ++ f.name ++ ".gz" ∧
    ∃ f2 ∈ fs, eligible f2.name = true ∧ joinPath root k = dst_path root f2 := by
  refine ⟨?_, ?_, ?_⟩
  · simp [dst_path, dst_filename, hfg]
  · exact (string_append_assoc (root ++ "/") f.name ".gz").symm
  · rcases compressFold_disk_keys h hk with h0 | ⟨f2, hf2, he2, hkey⟩
    · exact absurd rfl h0
    · exact ⟨f2, hf2, he2, by rw [hkey]; rfl⟩

/-- Witness for C7: with output root `data`, the artifact of a file nested in
`sub/dir` lands at `data/app.css.gz`; two files both named `m.js` in different
directories share one destination path. -/
theorem flattened_placement_uses_basename_witness :
    dst_path "data" ⟨["p"], "m.js", [1]⟩ = dst_path "data" ⟨["q"], "m.js", [2]⟩ ∧
    dst_path "data" ⟨["p"], "m.js", [1]⟩ = "data" ++ "/" ++ "m.js" ++ ".gz" ∧
    ∃ f2 ∈ [fC7], eligible f2.name = true ∧
      joinPath "data" "app.css.gz" = dst_path "data" f2 :=
  flattened_placement_uses_basename 0 "data" [fC7] stC7
    ⟨["p"], "m.js", [1]⟩ ⟨["q"], "m.js", [2]⟩ "app.css.gz" rfl rfl (by decide)

/-- Claim C8: every progress line the compression loop prints belongs to an
eligible staged file of positive size and reports that file's original size,
the written artifact's size, and a saving percentage equal to
`(1 - compressedSize / originalSize) * 100` — the ratio `1 -
compressedSize/originalSize` expressed as a percentage. -/
theorem progress_line_reports_exact_saving (now : Nat) (fs : List StagedFile)
    (st' : CompressState) (line : ProgressLine)
    (h : compressFold now initState fs = Except.ok st') (hl : line ∈ st'.lines) :
    0 < line.origSize ∧
    line.pctSaved = (1 - (line.compSize : ℚ) / (line.origSize : ℚ)) * 100 ∧
    ∃ f ∈ fs, eligible f.name = true ∧ line.srcName = f.name ∧
      line.dstName = f.name ++ ".gz" ∧ line.origSize = f.content.length ∧
      line.compSize = (gzipCompress now (f.name ++ ".gz") f.content).length := by
  rcases compressFold_lines_inv h line hl with h0 | ⟨f, hf, he, hz, hrec⟩
  · simp [initState] at h0
  · subst hrec
    exact ⟨Nat.pos_of_ne_zero hz, rfl, f, hf, he, rfl, rfl, rfl, rfl⟩

/-- Witness for C8: the line printed for the two-byte `a.js` carries its
original size 2, the artifact size, and the exact percentage saved. -/
theorem progress_line_reports_exact_saving_witness :
    0 < lineC8.origSize ∧
    lineC8.pctSaved = (1 - (lineC8.compSize : ℚ) / (lineC8.origSize : ℚ)) * 100 ∧
    ∃ f ∈ [fC8], eligible f.name = true ∧ lineC8.srcName = f.name ∧
      lineC8.dstName = f.name ++ ".gz" ∧ lineC8.origSize = f.content.length ∧
      lineC8.compSize = (gzipCompress 0 (f.name ++ ".gz") f.content).length :=
  progress_line_reports_exact_saving 0 [fC8] stC8 lineC8 rfl
    (by simp [stC8, lineC8, stepState, initState])

/-- Claim C9: under the flattened placement, two eligible staged files from
different subdirectories that share a base name are written to the same
destination name; after the loop, the artifact stored there is the one of the
file visited later in the traversal (no later eligible file reusing that
name), and the reported `file_count` strictly exceeds the number of distinct
artifacts in the output directory. -/
theorem basename_collision_overwrites (now : Nat) (a b c : List StagedFile)
    (f1 f2 : StagedFile) (st' : CompressState)
    (h : compressFold now initState (a ++ (f1 :: (b ++ (f2 :: c)))) = Except.ok st')
    (he1 : eligible f1.name = true) (he2 : eligible f2.name = true)
    (hn : f1.name = f2.name) (_hdir : f1.dir ≠ f2.dir)
    (hc : ∀ g ∈ c, eligible g.name = true → g.name ≠ f2.name) :
    dst_filename f1 = dst_filename f2 ∧
    readFile st'.disk (dst_filename f2) =
      some (gzipCompress now (dst_filename f2) f2.content) ∧
    st'.disk.length < st'.fileCount := by
  have hdst : dst_filename f1 = dst_filename f2 := by simp [dst_filename, hn]
  have hcount := compressFold_fileCount h
  rw [compressFold_append] at h
  cases ha : compressFold now initState a with
  | error e => rw [ha] at h; simp at h
  | ok sta =>
    rw [ha] at h
    obtain ⟨st1, hone1, hrest1⟩ := compressFold_cons_ok h
    rcases compressOne_ok_inv hone1 with ⟨hef1, _⟩ | ⟨_, hz1, hst1⟩
    · exact absurd he1 (by simp [hef1])
    subst hst1
    have hkey1 : readFile (stepState now sta f1).disk (dst_filename f2) ≠ none := by
      rw [← hdst]; simp [stepState, writeFile_read_self]
    have hstrict := compressFold_strict hrest1 he2 hkey1
    have hlena := compressFold_disk_le ha
    have hlen1 : (stepState now sta f1).disk.length ≤ sta.disk.length + 1 := by
      simpa [stepState] using
        writeFile_length_le sta.disk (dst_filename f1)
          (gzipCompress now (dst_filename f1) f1.content)
    rw [compressFold_append] at hrest1
    cases hbb : compressFold now (stepState now sta f1) b with
    | error e => rw [hbb] at hrest1; simp at hrest1
    | ok stb =>
      rw [hbb] at hrest1
      obtain ⟨st2, hone2, hrest2⟩ := compressFold_cons_ok hrest1
      rcases compressOne_ok_inv hone2 with ⟨hef2, _⟩ | ⟨_, hz2, hst2⟩
      · exact absurd he2 (by simp [hef2])
      subst hst2
      have hread2 : readFile (stepState now stb f2).disk (dst_filename f2) =
          some (gzipCompress now (dst_filename f2) f2.content) := by
        simp [stepState, writeFile_read_self]
      have hnowriter : ∀ g ∈ c, eligible g.name = true → dst_filename g ≠ dst_filename f2 := by
        intro g hg hge heq
        exact hc g hg hge (string_append_right_cancel heq)
      have hfinal : readFile st'.disk (dst_filename f2) =
          some (gzipCompress now (dst_filename f2) f2.content) := by
        rw [compressFold_read_of_no_writer hrest2 hnowriter, hread2]
      refine ⟨hdst, hfinal, ?_⟩
      simp only [List.filter_append, List.filter_cons, he1, he2, if_true,
        List.length_append, List.length_cons, List.length_nil, initState]
        at hcount hstrict hlena
      omega

/-- Witness for C9: `a/x.js` then `b/x.js`; both target `x.js.gz`, the stored
artifact is that of `b/x.js`, and `file_count` is 2 against 1 artifact. -/
theorem basename_collision_overwrites_witness :
    dst_filename fC9a = dst_filename fC9b ∧
    readFile stC9.disk (dst_filename fC9b) =
      some (gzipCompress 0 (dst_filename fC9b) fC9b.content) ∧
    stC9.disk.length < stC9.fileCount :=
  basename_collision_overwrites 0 [] [] [] fC9a fC9b stC9 rfl
    (by decide) (by decide) rfl (by decide) (by simp)

end SolEvc
